import Mathlib

/-!
# Verification of the Raft node core (`raft.go`)

A shallow embedding of the Raft node core from `raft/raft.go`: the three RPC
handlers (`appendEntries`, `requestVote`, `applyCommand`) and the two
response handlers driven by the candidate and leader loops
(`handleVoteResult`, `handleAppendEntriesResult`), together with the
`raftState` helper operations they call.

Machine integers (`uint64` log ids, terms and indices) are modelled as `Nat`
with explicit wrap-around (`% 2^64`) at every arithmetic operation the Go
source performs on them.  The `raftState` helper methods (`getLastLog`,
`getLog`, `getLogs`, `appendLogs`, `deleteLogs`, `voteFor`, `toFollower`,
`toLeader`, `setCommitIndex`, `setNextAndMatchIndex`, `applyLogs`) live in a
file that is not part of the provided sources; they are modelled from
specification section 4.2, which documents each of them.
-/

namespace RaftVerify

/-- Width of the Go `uint64` type used for log ids, terms and indices. -/
def W64 : Nat := 2 ^ 64

/-- Go `uint64` addition: wraps modulo `2^64`. -/
def add64 (a b : Nat) : Nat := (a + b) % W64

/-- Go `uint64` subtraction: wraps modulo `2^64` (for representable inputs). -/
def sub64 (a b : Nat) : Nat := (a + (W64 - b % W64)) % W64

/-- A log entry (`pb.Entry`): `{Id, Term, Data}`.  `Data` is an opaque
payload, modelled as a natural number. -/
structure Entry where
  id : Nat
  term : Nat
  data : Nat
deriving DecidableEq, Repr, Inhabited

/-- The three node roles (`Follower`, `Candidate`, `Leader`). -/
inductive RaftRole where
  | Follower
  | Candidate
  | Leader
deriving DecidableEq, Repr

open RaftRole

/-- The in-memory node state (`raftState` plus the peer set of `Raft`).
`nextIndex` and `matchIndex` are total maps from peer id; `peers` lists the
peer ids the node iterates over. -/
structure RaftState where
  state : RaftRole
  currentTerm : Nat
  votedFor : Nat
  logs : List Entry
  commitIndex : Nat
  lastApplied : Nat
  nextIndex : Nat → Nat
  matchIndex : Nat → Nat
  peers : List Nat

/-- Message `pb.AppendEntriesRequest`. -/
structure AppendEntriesRequest where
  term : Nat
  leaderId : Nat
  prevLogId : Nat
  prevLogTerm : Nat
  entries : List Entry
  leaderCommitId : Nat
deriving DecidableEq, Repr

/-- Message `pb.AppendEntriesResponse`. -/
structure AppendEntriesResponse where
  term : Nat
  success : Bool
deriving DecidableEq, Repr

/-- Message `pb.RequestVoteRequest`. -/
structure RequestVoteRequest where
  term : Nat
  candidateId : Nat
  lastLogId : Nat
  lastLogTerm : Nat
deriving DecidableEq, Repr

/-- Message `pb.RequestVoteResponse`. -/
structure RequestVoteResponse where
  term : Nat
  voteGranted : Bool
deriving DecidableEq, Repr

/-- Message `pb.ApplyCommandRequest`. -/
structure ApplyCommandRequest where
  data : Nat
deriving DecidableEq, Repr

/-- Message `pb.ApplyCommandResponse`. -/
structure ApplyCommandResponse where
  entry : Entry
deriving DecidableEq, Repr

/-- The error returned by `applyCommand` on a non-leader (`errNotLeader`). -/
inductive RaftError where
  | errNotLeader
deriving DecidableEq, Repr

/-- Modelled from the spec: `getLastLog() → (id, term)`, returning `(0,0)` on
an empty log (missing `raftState` helper, spec section 4.2). -/
def getLastLogL (logs : List Entry) : Nat × Nat :=
  match logs.getLast? with
  | some e => (e.id, e.term)
  | none => (0, 0)

/-- Modelled from the spec: `getLog(id) → Entry?`, the entry whose id equals
the argument (missing `raftState` helper, spec section 4.2). -/
def getLogL (logs : List Entry) (id : Nat) : Option Entry :=
  logs.find? (fun e => e.id == id)

/-- Modelled from the spec: `getLogs(fromId) → suffix`, all entries with id
at least `fromId` (missing `raftState` helper, spec section 4.2; the call
site comment reads "get all logs after and include the specific log Id"). -/
def getLogsL (logs : List Entry) (fromId : Nat) : List Entry :=
  logs.filter (fun e => fromId ≤ e.id)

/-- Modelled from the spec: `deleteLogs(id)` removes every entry with id
strictly greater than `id` (missing `raftState` helper; the call site
comment reads "deleteLogs(id) doesn't delete log with id"). -/
def deleteLogsL (logs : List Entry) (id : Nat) : List Entry :=
  logs.filter (fun e => e.id ≤ id)

/-- Helper `getLastLog` on the node state. -/
def RaftState.getLastLog (s : RaftState) : Nat × Nat := getLastLogL s.logs

/-- Helper `getLog` on the node state. -/
def RaftState.getLog (s : RaftState) (id : Nat) : Option Entry := getLogL s.logs id

/-- Helper `getLogs` on the node state. -/
def RaftState.getLogs (s : RaftState) (fromId : Nat) : List Entry := getLogsL s.logs fromId

/-- Modelled from the spec: `appendLogs(entries)` appends at the tail
(missing `raftState` helper, spec section 4.2). -/
def RaftState.appendLogs (s : RaftState) (entries : List Entry) : RaftState :=
  { s with logs := s.logs ++ entries }

/-- Helper `deleteLogs` on the node state. -/
def RaftState.deleteLogs (s : RaftState) (id : Nat) : RaftState :=
  { s with logs := deleteLogsL s.logs id }

/-- Modelled from the spec: `toFollower(term)` sets the role to Follower,
`currentTerm` to `term` and clears `votedFor` (missing `raftState` helper,
spec sections 4.2 and 4.8). -/
def RaftState.toFollower (s : RaftState) (term : Nat) : RaftState :=
  { s with state := Follower, currentTerm := term, votedFor := 0 }

/-- Modelled from the spec: `toLeader()` sets the role to Leader (missing
`raftState` helper, spec section 4.2). -/
def RaftState.toLeader (s : RaftState) : RaftState :=
  { s with state := Leader }

/-- Modelled from the spec: `voteFor(peerId, incrementTerm)`; when
`incrementTerm` it first bumps the term by 1 (missing `raftState` helper,
spec section 4.2). -/
def RaftState.voteFor (s : RaftState) (peerId : Nat) (increment : Bool) : RaftState :=
  let s1 := if increment then { s with currentTerm := add64 s.currentTerm 1 } else s
  { s1 with votedFor := peerId }

/-- Modelled from the spec: `setCommitIndex(n)` (missing `raftState` helper,
spec section 4.2). -/
def RaftState.setCommitIndex (s : RaftState) (n : Nat) : RaftState :=
  { s with commitIndex := n }

/-- Modelled from the spec: `setNextAndMatchIndex(peerId, next, match)`
(missing `raftState` helper, spec section 4.2). -/
def RaftState.setNextAndMatchIndex (s : RaftState) (peerId next matchv : Nat) : RaftState :=
  { s with
    nextIndex := fun p => if p = peerId then next else s.nextIndex p
    matchIndex := fun p => if p = peerId then matchv else s.matchIndex p }

/-- Modelled from the spec: `applyLogs(sink)` delivers every entry with
`lastApplied < id ≤ commitIndex` to the sink and advances `lastApplied`
(missing `raftState` helper, spec section 4.2); only the `lastApplied`
advancement is visible in this state model. -/
def RaftState.applyLogs (s : RaftState) : RaftState :=
  { s with lastApplied := s.commitIndex }

/-- Handler `applyCommand` (raft.go lines 61-76): reject with `errNotLeader` unless
Leader; otherwise append `{lastLogId+1, currentTerm, data}` and return it. -/
def applyCommand (s : RaftState) (req : ApplyCommandRequest) :
    RaftState × Except RaftError ApplyCommandResponse :=
  if s.state ≠ Leader then
    (s, Except.error RaftError.errNotLeader)
  else
    (s.appendLogs [⟨add64 s.getLastLog.1 1, s.currentTerm, req.data⟩],
      Except.ok ⟨⟨add64 s.getLastLog.1 1, s.currentTerm, req.data⟩⟩)

/-- The two step-down checks at the top of `appendEntries` (raft.go lines
93-104): adopt a newer term, and fall back to Follower when a Candidate
hears from a leader of at least its own term. -/
def aeAdopt (s : RaftState) (req : AppendEntriesRequest) : RaftState :=
  let s1 := if s.currentTerm < req.term then s.toFollower req.term else s
  if s1.currentTerm ≤ req.term ∧ s1.state = Candidate then s1.toFollower req.term else s1

/-- The previous-log consistency check of `appendEntries` (raft.go lines
106-117): performed only when both `prevLogId` and `prevLogTerm` are
nonzero; passes when the entry exists with matching term. -/
def aePrevCheckOk (s : RaftState) (req : AppendEntriesRequest) : Bool :=
  if req.prevLogId ≠ 0 ∧ req.prevLogTerm ≠ 0 then
    match s.getLog req.prevLogId with
    | none => false
    | some e => e.term == req.prevLogTerm
  else true

/-- The conflict-scan loop of `appendEntries` (raft.go lines 122-134):
walk the request entries with index `i` starting at 0; on a missing local
entry stop with `(i, none)`; on a term mismatch stop with
`(i, some entryId)`; if the walk completes, `startIndex` keeps its initial
value `n - 1` where `n` is the number of request entries. -/
def conflictScan (logs : List Entry) (n : Nat) : List Entry → Nat → Nat × Option Nat
  | [], _ => (n - 1, none)
  | e :: rest, i =>
    match getLogL logs e.id with
    | none => (i, none)
    | some le => if le.term = e.term then conflictScan logs n rest (i + 1) else (i, some e.id)

/-- The entry-reconciliation block of `appendEntries` (raft.go lines
119-141): when the request carries entries, run the conflict scan, truncate
at a conflict via `deleteLogs(conflictId - 1)`, then append
`entries[startIndex:]`. -/
def aeReconcileLogs (logs : List Entry) (entries : List Entry) : List Entry :=
  match entries with
  | [] => logs
  | _ =>
    let res := conflictScan logs entries.length entries 0
    let logs1 := match res.2 with
      | some cid => deleteLogsL logs (sub64 cid 1)
      | none => logs
    logs1 ++ entries.drop res.1

/-- The leader-commit block of `appendEntries` (raft.go lines 148-159): if
`leaderCommitId > commitIndex`, set `commitIndex` to the smaller of
`leaderCommitId` and the last log id, then apply. -/
def aeCommitUpdate (s : RaftState) (req : AppendEntriesRequest) : RaftState :=
  if s.commitIndex < req.leaderCommitId then
    (if req.leaderCommitId < s.getLastLog.1 then s.setCommitIndex req.leaderCommitId
     else s.setCommitIndex s.getLastLog.1).applyLogs
  else s

/-- The node state after the entry-reconciliation step of `appendEntries`:
the adopted state with its log reconciled against the request entries. -/
def aeReconciled (s : RaftState) (req : AppendEntriesRequest) : RaftState :=
  { aeAdopt s req with logs := aeReconcileLogs (aeAdopt s req).logs req.entries }

/-- Handler `appendEntries` (raft.go lines 78-161), assembled from its blocks in
source order: term reject, step-down, previous-log check, entry
reconciliation, leader-commit update, success reply. -/
def appendEntries (s : RaftState) (req : AppendEntriesRequest) :
    RaftState × AppendEntriesResponse :=
  if req.term < s.currentTerm then
    (s, ⟨s.currentTerm, false⟩)
  else if aePrevCheckOk (aeAdopt s req) req = false then
    (aeAdopt s req, ⟨(aeAdopt s req).currentTerm, false⟩)
  else
    (aeCommitUpdate (aeReconciled s req) req,
      ⟨(aeCommitUpdate (aeReconciled s req) req).currentTerm, true⟩)

/-- The term-adoption step of `requestVote` (raft.go lines 174-177). -/
def rvAdopt (s : RaftState) (req : RequestVoteRequest) : RaftState :=
  if s.currentTerm < req.term then s.toFollower req.term else s

/-- Handler `requestVote` (raft.go lines 163-212): term reject, term adoption,
already-voted check, up-to-date check, then grant. -/
def requestVote (s : RaftState) (req : RequestVoteRequest) :
    RaftState × RequestVoteResponse :=
  if req.term < s.currentTerm then
    (s, ⟨s.currentTerm, false⟩)
  else if (rvAdopt s req).votedFor ≠ 0 ∧ (rvAdopt s req).votedFor ≠ req.candidateId then
    (rvAdopt s req, ⟨(rvAdopt s req).currentTerm, false⟩)
  else if req.lastLogTerm < (getLastLogL (rvAdopt s req).logs).2 ∨
      ((getLastLogL (rvAdopt s req).logs).2 = req.lastLogTerm ∧
        req.lastLogId < (getLastLogL (rvAdopt s req).logs).1) then
    (rvAdopt s req, ⟨(rvAdopt s req).currentTerm, false⟩)
  else
    ((rvAdopt s req).voteFor req.candidateId false,
      ⟨((rvAdopt s req).voteFor req.candidateId false).currentTerm, true⟩)

/-- Threshold `votesNeeded` as computed in `runCandidate` (raft.go line 293):
`(len(peers)+1)/2 + 1`. -/
def votesNeeded (numPeers : Nat) : Nat := (numPeers + 1) / 2 + 1

/-- A `voteResult` (raft.go lines 284-287): a `RequestVoteResponse` plus the
responding peer id. -/
structure VoteResult where
  term : Nat
  voteGranted : Bool
  peerId : Nat
deriving DecidableEq, Repr

/-- Handler `handleVoteResult` (raft.go lines 365-385): step down on a newer term,
count a granted vote, and become Leader once the count reaches
`votesNeeded`.  Returns the updated state and granted-vote count. -/
def handleVoteResult (s : RaftState) (vote : VoteResult)
    (grantedVotes needed : Nat) : RaftState × Nat :=
  let s1 := if s.currentTerm < vote.term then s.toFollower vote.term else s
  let g := if vote.voteGranted then grantedVotes + 1 else grantedVotes
  let s2 := if needed ≤ g then s1.toLeader else s1
  (s2, g)

/-- An `appendEntriesResult` (raft.go lines 389-393): an
`AppendEntriesResponse` plus the request it answers and the peer id. -/
structure AppendEntriesResult where
  term : Nat
  success : Bool
  req : AppendEntriesRequest
  peerId : Nat
deriving DecidableEq, Repr

/-- The step-down check of `handleAppendEntriesResult` (raft.go lines
477-480). -/
def haerStepDown (s : RaftState) (result : AppendEntriesResult) : RaftState :=
  if s.currentTerm < result.term then s.toFollower result.term else s

/-- The per-peer index update of `handleAppendEntriesResult` (raft.go lines
483-501): on failure decrement `nextIndex[peer]`; on success with entries
set `nextIndex[peer] = lastSent.id + 1` and `matchIndex[peer] =
lastSent.id`. -/
def haerIndexUpdate (s : RaftState) (result : AppendEntriesResult) : RaftState :=
  if result.success = false then
    s.setNextAndMatchIndex result.peerId (sub64 (s.nextIndex result.peerId) 1)
      (s.matchIndex result.peerId)
  else
    match result.req.entries.getLast? with
    | some lastE => s.setNextAndMatchIndex result.peerId (add64 lastE.id 1) lastE.id
    | none => s

/-- Threshold `replicasNeeded` as computed in `handleAppendEntriesResult` (raft.go
line 503): `(len(peers)+1)/2 + 1`. -/
def replicasNeededOf (s : RaftState) : Nat := (s.peers.length + 1) / 2 + 1

/-- The replica count for entry id `N` (raft.go lines 520-526): self counts
as 1, plus every peer with `matchIndex[peer] ≥ N`. -/
def replicaCount (s : RaftState) (N : Nat) : Nat :=
  1 + (s.peers.filter (fun p => N ≤ s.matchIndex p)).length

/-- The commit-advancement loop of `handleAppendEntriesResult` (raft.go
lines 505-533), as a recursion over the scanned entries from highest id
downward: stop at an id at or below `commitIndex`; skip entries of another
term; commit and apply at the first majority-replicated current-term
entry. -/
def commitScan (s : RaftState) (needed : Nat) : List Entry → RaftState
  | [] => s
  | e :: rest =>
    if e.id ≤ s.commitIndex then s
    else if e.term ≠ s.currentTerm then commitScan s needed rest
    else if needed ≤ replicaCount s e.id then (s.setCommitIndex e.id).applyLogs
    else commitScan s needed rest

/-- The state of `handleAppendEntriesResult` just before its
commit-advancement loop: step-down followed by the per-peer index
update. -/
def haerPreCommit (s : RaftState) (result : AppendEntriesResult) : RaftState :=
  haerIndexUpdate (haerStepDown s result) result

/-- Handler `handleAppendEntriesResult` (raft.go lines 473-534), assembled in source
order: step down, per-peer index update, then the downward commit scan over
`getLogs(commitIndex + 1)`. -/
def handleAppendEntriesResult (s : RaftState) (result : AppendEntriesResult) : RaftState :=
  commitScan (haerPreCommit s result) (replicasNeededOf (haerPreCommit s result))
    ((getLogsL (haerPreCommit s result).logs (add64 (haerPreCommit s result).commitIndex 1)).reverse)

/-! ## Projection lemmas for the state helpers -/

@[simp] theorem toFollower_state (s : RaftState) (t : Nat) : (s.toFollower t).state = Follower := rfl

@[simp] theorem toFollower_currentTerm (s : RaftState) (t : Nat) : (s.toFollower t).currentTerm = t := rfl

@[simp] theorem toFollower_votedFor (s : RaftState) (t : Nat) : (s.toFollower t).votedFor = 0 := rfl

@[simp] theorem toFollower_logs (s : RaftState) (t : Nat) : (s.toFollower t).logs = s.logs := rfl

@[simp] theorem toFollower_commitIndex (s : RaftState) (t : Nat) : (s.toFollower t).commitIndex = s.commitIndex := rfl

@[simp] theorem toFollower_nextIndex (s : RaftState) (t : Nat) : (s.toFollower t).nextIndex = s.nextIndex := rfl

@[simp] theorem toFollower_matchIndex (s : RaftState) (t : Nat) : (s.toFollower t).matchIndex = s.matchIndex := rfl

@[simp] theorem toFollower_peers (s : RaftState) (t : Nat) : (s.toFollower t).peers = s.peers := rfl

@[simp] theorem toLeader_state (s : RaftState) : s.toLeader.state = Leader := rfl

@[simp] theorem toLeader_currentTerm (s : RaftState) : s.toLeader.currentTerm = s.currentTerm := rfl

@[simp] theorem toLeader_votedFor (s : RaftState) : s.toLeader.votedFor = s.votedFor := rfl

@[simp] theorem toLeader_commitIndex (s : RaftState) : s.toLeader.commitIndex = s.commitIndex := rfl

@[simp] theorem setCommitIndex_commitIndex (s : RaftState) (n : Nat) : (s.setCommitIndex n).commitIndex = n := rfl

@[simp] theorem setCommitIndex_state (s : RaftState) (n : Nat) : (s.setCommitIndex n).state = s.state := rfl

@[simp] theorem setCommitIndex_currentTerm (s : RaftState) (n : Nat) : (s.setCommitIndex n).currentTerm = s.currentTerm := rfl

@[simp] theorem setCommitIndex_votedFor (s : RaftState) (n : Nat) : (s.setCommitIndex n).votedFor = s.votedFor := rfl

@[simp] theorem setCommitIndex_logs (s : RaftState) (n : Nat) : (s.setCommitIndex n).logs = s.logs := rfl

@[simp] theorem setCommitIndex_nextIndex (s : RaftState) (n : Nat) : (s.setCommitIndex n).nextIndex = s.nextIndex := rfl

@[simp] theorem setCommitIndex_matchIndex (s : RaftState) (n : Nat) : (s.setCommitIndex n).matchIndex = s.matchIndex := rfl

@[simp] theorem applyLogs_commitIndex (s : RaftState) : s.applyLogs.commitIndex = s.commitIndex := rfl

@[simp] theorem applyLogs_state (s : RaftState) : s.applyLogs.state = s.state := rfl

@[simp] theorem applyLogs_currentTerm (s : RaftState) : s.applyLogs.currentTerm = s.currentTerm := rfl

@[simp] theorem applyLogs_votedFor (s : RaftState) : s.applyLogs.votedFor = s.votedFor := rfl

@[simp] theorem applyLogs_logs (s : RaftState) : s.applyLogs.logs = s.logs := rfl

@[simp] theorem applyLogs_nextIndex (s : RaftState) : s.applyLogs.nextIndex = s.nextIndex := rfl

@[simp] theorem applyLogs_matchIndex (s : RaftState) : s.applyLogs.matchIndex = s.matchIndex := rfl

@[simp] theorem setNextAndMatchIndex_state (s : RaftState) (p n m : Nat) : (s.setNextAndMatchIndex p n m).state = s.state := rfl

@[simp] theorem setNextAndMatchIndex_currentTerm (s : RaftState) (p n m : Nat) : (s.setNextAndMatchIndex p n m).currentTerm = s.currentTerm := rfl

@[simp] theorem setNextAndMatchIndex_votedFor (s : RaftState) (p n m : Nat) : (s.setNextAndMatchIndex p n m).votedFor = s.votedFor := rfl

@[simp] theorem setNextAndMatchIndex_logs (s : RaftState) (p n m : Nat) : (s.setNextAndMatchIndex p n m).logs = s.logs := rfl

@[simp] theorem setNextAndMatchIndex_commitIndex (s : RaftState) (p n m : Nat) : (s.setNextAndMatchIndex p n m).commitIndex = s.commitIndex := rfl

@[simp] theorem setNextAndMatchIndex_peers (s : RaftState) (p n m : Nat) : (s.setNextAndMatchIndex p n m).peers = s.peers := rfl

@[simp] theorem setNextAndMatchIndex_nextIndex (s : RaftState) (p n m q : Nat) :
    (s.setNextAndMatchIndex p n m).nextIndex q = if q = p then n else s.nextIndex q := rfl

@[simp] theorem setNextAndMatchIndex_matchIndex (s : RaftState) (p n m q : Nat) :
    (s.setNextAndMatchIndex p n m).matchIndex q = if q = p then m else s.matchIndex q := rfl

@[simp] theorem appendLogs_logs (s : RaftState) (es : List Entry) : (s.appendLogs es).logs = s.logs ++ es := rfl

@[simp] theorem appendLogs_state (s : RaftState) (es : List Entry) : (s.appendLogs es).state = s.state := rfl

@[simp] theorem appendLogs_currentTerm (s : RaftState) (es : List Entry) : (s.appendLogs es).currentTerm = s.currentTerm := rfl

@[simp] theorem appendLogs_votedFor (s : RaftState) (es : List Entry) : (s.appendLogs es).votedFor = s.votedFor := rfl

@[simp] theorem appendLogs_commitIndex (s : RaftState) (es : List Entry) : (s.appendLogs es).commitIndex = s.commitIndex := rfl

@[simp] theorem voteFor_votedFor (s : RaftState) (p : Nat) (b : Bool) : (s.voteFor p b).votedFor = p := by
  cases b <;> rfl

@[simp] theorem voteFor_state (s : RaftState) (p : Nat) (b : Bool) : (s.voteFor p b).state = s.state := by
  cases b <;> rfl

@[simp] theorem voteFor_logs (s : RaftState) (p : Nat) (b : Bool) : (s.voteFor p b).logs = s.logs := by
  cases b <;> rfl

@[simp] theorem voteFor_commitIndex (s : RaftState) (p : Nat) (b : Bool) : (s.voteFor p b).commitIndex = s.commitIndex := by
  cases b <;> rfl

@[simp] theorem voteFor_false_currentTerm (s : RaftState) (p : Nat) : (s.voteFor p false).currentTerm = s.currentTerm := rfl

/-! ## Characterization of the commit-advancement scan -/

theorem commitScan_cases (s : RaftState) (needed : Nat) (L : List Entry) :
    commitScan s needed L = s ∨
      ∃ e, e ∈ L ∧ s.commitIndex < e.id ∧ e.term = s.currentTerm ∧
        needed ≤ replicaCount s e.id ∧
        commitScan s needed L = (s.setCommitIndex e.id).applyLogs := by
  induction L with
  | nil => exact Or.inl rfl
  | cons e rest ih =>
    rw [commitScan]
    split_ifs with h1 h2 h3
    · exact Or.inl rfl
    · rcases ih with h | ⟨e', hmem, hlt, ht, hm, heq⟩
      · exact Or.inl h
      · exact Or.inr ⟨e', List.mem_cons_of_mem _ hmem, hlt, ht, hm, heq⟩
    · exact Or.inr ⟨e, List.mem_cons_self _ _, by omega, not_not.mp h2, h3, rfl⟩
    · rcases ih with h | ⟨e', hmem, hlt, ht, hm, heq⟩
      · exact Or.inl h
      · exact Or.inr ⟨e', List.mem_cons_of_mem _ hmem, hlt, ht, hm, heq⟩

theorem commitScan_state (s : RaftState) (needed : Nat) (L : List Entry) :
    (commitScan s needed L).state = s.state := by
  rcases commitScan_cases s needed L with h | ⟨e, _, _, _, _, h⟩ <;> rw [h] <;> simp

theorem commitScan_currentTerm (s : RaftState) (needed : Nat) (L : List Entry) :
    (commitScan s needed L).currentTerm = s.currentTerm := by
  rcases commitScan_cases s needed L with h | ⟨e, _, _, _, _, h⟩ <;> rw [h] <;> simp

theorem commitScan_votedFor (s : RaftState) (needed : Nat) (L : List Entry) :
    (commitScan s needed L).votedFor = s.votedFor := by
  rcases commitScan_cases s needed L with h | ⟨e, _, _, _, _, h⟩ <;> rw [h] <;> simp

theorem commitScan_logs (s : RaftState) (needed : Nat) (L : List Entry) :
    (commitScan s needed L).logs = s.logs := by
  rcases commitScan_cases s needed L with h | ⟨e, _, _, _, _, h⟩ <;> rw [h] <;> simp

theorem commitScan_nextIndex (s : RaftState) (needed : Nat) (L : List Entry) :
    (commitScan s needed L).nextIndex = s.nextIndex := by
  rcases commitScan_cases s needed L with h | ⟨e, _, _, _, _, h⟩ <;> rw [h] <;> simp

theorem commitScan_matchIndex (s : RaftState) (needed : Nat) (L : List Entry) :
    (commitScan s needed L).matchIndex = s.matchIndex := by
  rcases commitScan_cases s needed L with h | ⟨e, _, _, _, _, h⟩ <;> rw [h] <;> simp

theorem commitScan_commitIndex_ge (s : RaftState) (needed : Nat) (L : List Entry) :
    s.commitIndex ≤ (commitScan s needed L).commitIndex := by
  rcases commitScan_cases s needed L with h | ⟨e, _, hlt, _, _, h⟩ <;> rw [h] <;> simp
  omega

/-- The Boolean test the commit scan applies to one entry: current-term and
majority-replicated. -/
def commitPred (s : RaftState) (needed : Nat) (e : Entry) : Bool :=
  e.term == s.currentTerm && decide (needed ≤ replicaCount s e.id)

theorem commitScan_eq_find (s : RaftState) (needed : Nat) (L : List Entry)
    (h : ∀ e ∈ L, s.commitIndex < e.id) :
    commitScan s needed L =
      (match L.find? (commitPred s needed) with
       | some e => (s.setCommitIndex e.id).applyLogs
       | none => s) := by
  induction L with
  | nil => rfl
  | cons e rest ih =>
    have hid : s.commitIndex < e.id := h e (List.mem_cons_self _ _)
    have hrest : ∀ e' ∈ rest, s.commitIndex < e'.id :=
      fun e' he' => h e' (List.mem_cons_of_mem _ he')
    rw [commitScan]
    split_ifs with h1 h2 h3
    · omega
    · have hp : ¬ commitPred s needed e = true := by
        simp only [commitPred, Bool.and_eq_true, beq_iff_eq, decide_eq_true_eq]
        intro hc
        exact h2 hc.1
      rw [List.find?_cons_of_neg _ hp]
      exact ih hrest
    · have hp : commitPred s needed e = true := by
        simp only [commitPred, Bool.and_eq_true, beq_iff_eq, decide_eq_true_eq]
        exact ⟨not_not.mp h2, h3⟩
      rw [List.find?_cons_of_pos _ hp]
    · have hp : ¬ commitPred s needed e = true := by
        simp only [commitPred, Bool.and_eq_true, beq_iff_eq, decide_eq_true_eq]
        intro hc
        exact h3 hc.2
      rw [List.find?_cons_of_neg _ hp]
      exact ih hrest

theorem find?_first_of_pairwise {α : Type} {R : α → α → Prop} {p : α → Bool} :
    ∀ {l : List α} {a : α}, l.Pairwise R → l.find? p = some a →
      ∀ b ∈ l, p b = true → b = a ∨ R a b := by
  intro l
  induction l with
  | nil => intro a _ hf; exact absurd hf (by simp)
  | cons x xs ih =>
    intro a hpw hf b hb hpb
    rcases List.pairwise_cons.mp hpw with ⟨hx, hxs⟩
    by_cases hpx : p x = true
    · rw [List.find?_cons_of_pos _ hpx] at hf
      cases hf
      rcases List.mem_cons.mp hb with rfl | hb'
      · exact Or.inl rfl
      · exact Or.inr (hx b hb')
    · rw [List.find?_cons_of_neg _ hpx] at hf
      rcases List.mem_cons.mp hb with rfl | hb'
      · exact absurd hpb hpx
      · exact ih hxs hf b hb' hpb

/-! ## Well-formed logs -/

/-- A well-formed replicated log: entry ids are exactly `1, 2, ..., n` in
order (spec section 3, invariant on Log). -/
def WellFormedLog (logs : List Entry) : Prop :=
  logs.map Entry.id = List.range' 1 logs.length

instance (logs : List Entry) : Decidable (WellFormedLog logs) := by
  unfold WellFormedLog; infer_instance

theorem WellFormedLog.pairwise {logs : List Entry} (h : WellFormedLog logs) :
    logs.Pairwise (fun a b => a.id < b.id) := by
  have h2 : (logs.map Entry.id).Pairwise (· < ·) := by
    rw [h]; exact List.pairwise_lt_range' 1 _
  exact List.pairwise_map.mp h2

/-! ## Stage projections of handleAppendEntriesResult -/

theorem haerPreCommit_commitIndex (s : RaftState) (res : AppendEntriesResult) :
    (haerPreCommit s res).commitIndex = s.commitIndex := by
  unfold haerPreCommit haerIndexUpdate haerStepDown
  split_ifs <;> try simp
  all_goals (split <;> simp)

theorem haerPreCommit_logs (s : RaftState) (res : AppendEntriesResult) :
    (haerPreCommit s res).logs = s.logs := by
  unfold haerPreCommit haerIndexUpdate haerStepDown
  split_ifs <;> try simp
  all_goals (split <;> simp)

theorem haerPreCommit_peers (s : RaftState) (res : AppendEntriesResult) :
    (haerPreCommit s res).peers = s.peers := by
  unfold haerPreCommit haerIndexUpdate haerStepDown
  split_ifs <;> try simp
  all_goals (split <;> simp)

theorem aeAdopt_logs (s : RaftState) (req : AppendEntriesRequest) :
    (aeAdopt s req).logs = s.logs := by
  simp only [aeAdopt]
  split_ifs <;> simp

theorem aeAdopt_commitIndex (s : RaftState) (req : AppendEntriesRequest) :
    (aeAdopt s req).commitIndex = s.commitIndex := by
  simp only [aeAdopt]
  split_ifs <;> simp

/-! ## Concrete inputs used by the claim-level theorems -/

/-- The all-zero peer-index map used by the concrete states below. -/
def zeroMap : Nat → Nat := fun _ => 0

/-- Concrete follower for claim C1: a single committed-free entry `(1,1)`. -/
def stateC1 : RaftState := ⟨Follower, 1, 0, [⟨1, 1, 0⟩], 0, 0, zeroMap, zeroMap, [2, 3]⟩

/-- Concrete request for claim C1: its only entry is already present with a
matching term. -/
def reqC1 : AppendEntriesRequest := ⟨1, 2, 0, 0, [⟨1, 1, 0⟩], 0⟩

/-- Concrete follower for claim C6 with log `[(1,1,a),(2,1,b),(3,1,c)]`
(payloads 10, 11, 12). -/
def stateC6 : RaftState := ⟨Follower, 1, 0, [⟨1, 1, 10⟩, ⟨2, 1, 11⟩, ⟨3, 1, 12⟩], 0, 0, zeroMap, zeroMap, [2, 3]⟩

/-- Concrete request for claim C6: term 2, `prevLogId=1`, `prevLogTerm=1`,
entries `[(2,2,b')]` (payload 13). -/
def reqC6 : AppendEntriesRequest := ⟨2, 2, 1, 1, [⟨2, 2, 13⟩], 0⟩

/-- Concrete leader for claim C9's witness. -/
def stateC9 : RaftState := ⟨Leader, 3, 1, [⟨1, 2, 5⟩], 1, 1, zeroMap, zeroMap, [2, 3]⟩

/-- Concrete client request for claim C9's witness. -/
def reqC9 : ApplyCommandRequest := ⟨42⟩

/-- Concrete candidate for claim C10's witness. -/
def stateC10 : RaftState := ⟨Candidate, 1, 1, [], 0, 0, zeroMap, zeroMap, [2, 3]⟩

/-- Concrete vote result for claim C10's witness: higher term and granted. -/
def voteC10 : VoteResult := ⟨2, true, 2⟩

/-! ## Claim C1 -/

/-- C1: the claim says an AppendEntries request whose entries are all
already present with matching terms appends nothing.  On the input below
(log `[(1,1)]`, request entries `[(1,1)]`) the handler instead re-appends
the final request entry: the conflict-scan start index stays at
`len(entries)-1`, so `entries[len-1:]` is appended even with no divergence,
duplicating the last entry.  This evaluates the code at the failing
input. -/
theorem c1_duplicate_append_on_fully_present_entries :
    (appendEntries stateC1 reqC1).1.logs = [⟨1, 1, 0⟩, ⟨1, 1, 0⟩] ∧
    (appendEntries stateC1 reqC1).1.logs ≠ stateC1.logs ∧
    (appendEntries stateC1 reqC1).2 = ⟨1, true⟩ := by
  decide

/-! ## Claim C2 -/

/-- C2 counterexample: with two peers the full cluster size is N = 3; the
code's `votesNeeded = (len(peers)+1)/2 + 1` evaluates to 2, while the
claimed formula `⌊(N+1)/2⌋ + 1` evaluates to 3. -/
theorem c2_counterexample_votes_needed_formula :
    votesNeeded 2 = 2 ∧ votesNeeded 2 ≠ ((2 + 1) + 1) / 2 + 1 := by
  decide

/-- C2 (amended): `votesNeeded` over a cluster of `numPeers + 1` nodes is
the strict-majority threshold `⌊N/2⌋ + 1`: the least count whose double
exceeds the full cluster size. -/
theorem c2_votes_needed_strict_majority (numPeers : Nat) :
    numPeers + 1 < 2 * votesNeeded numPeers ∧
    ∀ k, numPeers + 1 < 2 * k → votesNeeded numPeers ≤ k := by
  unfold votesNeeded
  refine ⟨by omega, fun k hk => by omega⟩

/-- C2 witness: the strict-majority characterization applied at two peers. -/
theorem c2_votes_needed_strict_majority_witness :
    2 + 1 < 2 * votesNeeded 2 ∧ votesNeeded 2 ≤ 2 :=
  ⟨(c2_votes_needed_strict_majority 2).1,
   (c2_votes_needed_strict_majority 2).2 2 (by decide)⟩

/-! ## Claim C6 -/

/-- C6: on the follower with log `[(1,1,a),(2,1,b),(3,1,c)]`, the term-2
request with `prevLogId=1`, `prevLogTerm=1`, entries `[(2,2,b')]` truncates
entries 2 and 3, appends `(2,2,b')` and replies `{term: 2, success: true}`:
the resulting log is `[(1,1,a),(2,2,b')]`. -/
theorem c6_conflicting_suffix_overwrite :
    (appendEntries stateC6 reqC6).1.logs = [⟨1, 1, 10⟩, ⟨2, 2, 13⟩] ∧
    (appendEntries stateC6 reqC6).2 = ⟨2, true⟩ := by
  decide

/-! ## Claim C9 -/

/-- C9: `applyCommand` returns `errNotLeader` with the state untouched
exactly when the node is not Leader; on a Leader it appends the single
entry `{lastLogId + 1, currentTerm, data}`, returns it, and leaves
`currentTerm`, `votedFor` and `commitIndex` unchanged (stated below the
`uint64` overflow boundary for the id increment). -/
theorem c9_apply_command_characterization (s : RaftState) (req : ApplyCommandRequest) :
    (s.state ≠ Leader →
      applyCommand s req = (s, Except.error RaftError.errNotLeader)) ∧
    (s.state = Leader → s.getLastLog.1 + 1 < W64 →
      (applyCommand s req).1.logs
          = s.logs ++ [⟨s.getLastLog.1 + 1, s.currentTerm, req.data⟩] ∧
      (applyCommand s req).2
          = Except.ok ⟨⟨s.getLastLog.1 + 1, s.currentTerm, req.data⟩⟩ ∧
      (applyCommand s req).1.currentTerm = s.currentTerm ∧
      (applyCommand s req).1.votedFor = s.votedFor ∧
      (applyCommand s req).1.commitIndex = s.commitIndex) := by
  constructor
  · intro h
    unfold applyCommand
    rw [if_pos h]
  · intro h hov
    have hadd : add64 s.getLastLog.1 1 = s.getLastLog.1 + 1 := by
      unfold add64
      exact Nat.mod_eq_of_lt hov
    unfold applyCommand
    rw [if_neg (not_not_intro h)]
    simp [hadd]

/-- C9 witness: the Leader branch of the characterization at a concrete
leader state. -/
theorem c9_apply_command_characterization_witness :
    stateC9.state = Leader ∧ stateC9.getLastLog.1 + 1 < W64 ∧
    ((applyCommand stateC9 reqC9).1.logs
        = stateC9.logs ++ [⟨stateC9.getLastLog.1 + 1, stateC9.currentTerm, reqC9.data⟩] ∧
      (applyCommand stateC9 reqC9).2
        = Except.ok ⟨⟨stateC9.getLastLog.1 + 1, stateC9.currentTerm, reqC9.data⟩⟩ ∧
      (applyCommand stateC9 reqC9).1.currentTerm = stateC9.currentTerm ∧
      (applyCommand stateC9 reqC9).1.votedFor = stateC9.votedFor ∧
      (applyCommand stateC9 reqC9).1.commitIndex = stateC9.commitIndex) :=
  ⟨rfl, by decide, (c9_apply_command_characterization stateC9 reqC9).2 rfl (by decide)⟩

/-! ## Claim C10 -/

/-- C10: a RequestVote response carrying both a term above `currentTerm` and
`voteGranted = true` first makes the node step down (Follower at the new
term, `votedFor` cleared) and is then still counted; when the count reaches
`votesNeeded`, `toLeader` runs, so the node ends the call as Leader at the
higher term with the incremented grant count. -/
theorem c10_higher_term_grant_still_counted (s : RaftState) (vote : VoteResult)
    (g needed : Nat) (hterm : s.currentTerm < vote.term)
    (hgrant : vote.voteGranted = true) (hwin : needed ≤ g + 1) :
    (handleVoteResult s vote g needed).2 = g + 1 ∧
    (handleVoteResult s vote g needed).1.state = Leader ∧
    (handleVoteResult s vote g needed).1.currentTerm = vote.term ∧
    (handleVoteResult s vote g needed).1.votedFor = 0 := by
  unfold handleVoteResult
  simp [hterm, hgrant, hwin]

/-- C10 witness: a candidate at term 1 holding one vote receives a granted
response at term 2 with `votesNeeded = 2` and leaves the call as Leader at
term 2. -/
theorem c10_higher_term_grant_still_counted_witness :
    stateC10.currentTerm < voteC10.term ∧ voteC10.voteGranted = true ∧ 2 ≤ 1 + 1 ∧
    ((handleVoteResult stateC10 voteC10 1 2).2 = 1 + 1 ∧
      (handleVoteResult stateC10 voteC10 1 2).1.state = Leader ∧
      (handleVoteResult stateC10 voteC10 1 2).1.currentTerm = voteC10.term ∧
      (handleVoteResult stateC10 voteC10 1 2).1.votedFor = 0) :=
  ⟨by decide, rfl, by decide,
   c10_higher_term_grant_still_counted stateC10 voteC10 1 2 (by decide) rfl (by decide)⟩

/-! ## Claim C3 -/

/-- Concrete leader for claim C3's counterexample: `nextIndex` maps every
peer to 5. -/
def stateC3 : RaftState := ⟨Leader, 1, 1, [], 0, 0, fun _ => 5, zeroMap, [2, 3]⟩

/-- Concrete response for claim C3's counterexample: term 2 (above the
leader's term 1), unsuccessful, from peer 2. -/
def resC3 : AppendEntriesResult := ⟨2, false, ⟨1, 1, 0, 0, [], 0⟩, 2⟩

/-- C3 counterexample: on a response whose term 2 exceeds the current term
1, the handler does not stop after stepping down: it still runs the
failure branch and decrements `nextIndex[2]` from 5 to 4, refuting
"nextIndex[peer] ... left unchanged". -/
theorem c3_counterexample_next_index_changes :
    stateC3.currentTerm < resC3.term ∧
    stateC3.nextIndex 2 = 5 ∧
    (handleAppendEntriesResult stateC3 resC3).nextIndex 2 = 4 := by
  decide

/-- C3 (amended): on a response with a term above `currentTerm` the handler
steps down (Follower at the response term) but keeps processing: in
particular, an unsuccessful response still decrements `nextIndex[peer]` by
one (with `uint64` wrap-around) while `matchIndex` stays unchanged. -/
theorem c3_step_down_and_continue (s : RaftState) (res : AppendEntriesResult)
    (hterm : s.currentTerm < res.term) :
    (handleAppendEntriesResult s res).state = Follower ∧
    (handleAppendEntriesResult s res).currentTerm = res.term ∧
    (res.success = false →
      (handleAppendEntriesResult s res).nextIndex res.peerId
          = sub64 (s.nextIndex res.peerId) 1 ∧
      ∀ p, (handleAppendEntriesResult s res).matchIndex p = s.matchIndex p) := by
  simp only [handleAppendEntriesResult]
  refine ⟨?_, ?_, ?_⟩
  · rw [commitScan_state]
    unfold haerPreCommit haerStepDown haerIndexUpdate
    rw [if_pos hterm]
    split_ifs with h
    · simp
    · split <;> simp
  · rw [commitScan_currentTerm]
    unfold haerPreCommit haerStepDown haerIndexUpdate
    rw [if_pos hterm]
    split_ifs with h
    · simp
    · split <;> simp
  · intro hfail
    constructor
    · rw [commitScan_nextIndex]
      unfold haerPreCommit haerStepDown haerIndexUpdate
      rw [if_pos hterm, if_pos hfail]
      simp
    · intro p
      rw [commitScan_matchIndex]
      unfold haerPreCommit haerStepDown haerIndexUpdate
      rw [if_pos hterm, if_pos hfail]
      simp only [setNextAndMatchIndex_matchIndex, toFollower_matchIndex]
      split_ifs with h
      · rw [h]
      · rfl

/-- C3 witness: the amended statement at the concrete counterexample
input; the step down happens and the failure branch still runs. -/
theorem c3_step_down_and_continue_witness :
    stateC3.currentTerm < resC3.term ∧
    ((handleAppendEntriesResult stateC3 resC3).state = Follower ∧
      (handleAppendEntriesResult stateC3 resC3).currentTerm = resC3.term ∧
      (resC3.success = false →
        (handleAppendEntriesResult stateC3 resC3).nextIndex resC3.peerId
            = sub64 (stateC3.nextIndex resC3.peerId) 1 ∧
        ∀ p, (handleAppendEntriesResult stateC3 resC3).matchIndex p = stateC3.matchIndex p)) :=
  ⟨by decide, c3_step_down_and_continue stateC3 resC3 (by decide)⟩

/-! ## Claim C5 -/

/-- Concrete follower for claim C5's counterexample: empty log. -/
def stateC5 : RaftState := ⟨Follower, 1, 0, [], 0, 0, zeroMap, zeroMap, [2, 3]⟩

/-- Concrete request for claim C5's counterexample: `prevLogId = 5` but
`prevLogTerm = 0`, so the code skips the consistency check the claim
requires. -/
def reqC5 : AppendEntriesRequest := ⟨1, 2, 5, 0, [], 0⟩

/-- C5 counterexample: the claim's premises hold (request term at least the
current term, `prevLogId ≠ 0`, no local entry with that id) yet the handler
replies success, because the source guards the check with
`prevLogId != 0 && prevLogTerm != 0` and here `prevLogTerm = 0`. -/
theorem c5_counterexample_zero_prev_term_skips_check :
    stateC5.currentTerm ≤ reqC5.term ∧ reqC5.prevLogId ≠ 0 ∧
    stateC5.getLog reqC5.prevLogId = none ∧
    (appendEntries stateC5 reqC5).2.success = true := by
  decide

/-- C5 (amended): when the request term is at least the current term and
both `prevLogId` and `prevLogTerm` are nonzero, a missing or
term-mismatched local entry at `prevLogId` makes the handler reply
`{currentTerm, success: false}` with the log unchanged. -/
theorem c5_prev_log_mismatch_rejected (s : RaftState) (req : AppendEntriesRequest)
    (hterm : s.currentTerm ≤ req.term)
    (hpid : req.prevLogId ≠ 0) (hpterm : req.prevLogTerm ≠ 0)
    (hmiss : ∀ e, s.getLog req.prevLogId = some e → e.term ≠ req.prevLogTerm) :
    (appendEntries s req).2.success = false ∧
    (appendEntries s req).2.term = (appendEntries s req).1.currentTerm ∧
    (appendEntries s req).1.logs = s.logs := by
  have hck : aePrevCheckOk (aeAdopt s req) req = false := by
    unfold aePrevCheckOk
    rw [if_pos ⟨hpid, hpterm⟩]
    have hlogs : (aeAdopt s req).getLog req.prevLogId = s.getLog req.prevLogId := by
      unfold RaftState.getLog
      rw [aeAdopt_logs]
    rw [hlogs]
    cases hsome : s.getLog req.prevLogId with
    | none => rfl
    | some e =>
      simp only [beq_eq_false_iff_ne, ne_eq]
      exact hmiss e hsome
  unfold appendEntries
  rw [if_neg (Nat.not_lt.mpr hterm), if_pos hck]
  exact ⟨rfl, rfl, aeAdopt_logs s req⟩

/-- Concrete follower for claim C5's witness: log `[(1,1)]`. -/
def stateC5w : RaftState := ⟨Follower, 1, 0, [⟨1, 1, 0⟩], 0, 0, zeroMap, zeroMap, [2, 3]⟩

/-- Concrete request for claim C5's witness: `prevLogTerm = 2` mismatches
the local entry's term 1. -/
def reqC5w : AppendEntriesRequest := ⟨1, 2, 1, 2, [⟨2, 2, 0⟩], 0⟩

/-- C5 witness: the amended statement at a concrete term-mismatch input. -/
theorem c5_prev_log_mismatch_rejected_witness :
    stateC5w.currentTerm ≤ reqC5w.term ∧
    ((appendEntries stateC5w reqC5w).2.success = false ∧
      (appendEntries stateC5w reqC5w).2.term = (appendEntries stateC5w reqC5w).1.currentTerm ∧
      (appendEntries stateC5w reqC5w).1.logs = stateC5w.logs) :=
  ⟨by decide,
   c5_prev_log_mismatch_rejected stateC5w reqC5w (by decide) (by decide) (by decide)
     (by
       intro e he
       rw [show stateC5w.getLog reqC5w.prevLogId = some ⟨1, 1, 0⟩ from rfl] at he
       cases he
       decide)⟩

/-! ## Claim C7 -/

/-- The value `votedFor` holds right after the term-adoption step of
`requestVote`: cleared to 0 when a newer term is adopted, otherwise its
prior value. -/
def vfAfterAdopt (s : RaftState) (req : RequestVoteRequest) : Nat :=
  if s.currentTerm < req.term then 0 else s.votedFor

/-- The claim's up-to-date test: the candidate's last log is at least as
recent as the receiver's, by term then id. -/
def candidateUpToDate (s : RaftState) (req : RequestVoteRequest) : Prop :=
  (getLastLogL s.logs).2 < req.lastLogTerm ∨
    ((getLastLogL s.logs).2 = req.lastLogTerm ∧ (getLastLogL s.logs).1 ≤ req.lastLogId)

instance (s : RaftState) (req : RequestVoteRequest) : Decidable (candidateUpToDate s req) := by
  unfold candidateUpToDate
  infer_instance

theorem rvAdopt_votedFor (s : RaftState) (req : RequestVoteRequest) :
    (rvAdopt s req).votedFor = vfAfterAdopt s req := by
  unfold rvAdopt vfAfterAdopt
  split_ifs <;> simp

theorem rvAdopt_logs (s : RaftState) (req : RequestVoteRequest) :
    (rvAdopt s req).logs = s.logs := by
  unfold rvAdopt
  split_ifs <;> simp

/-- Concrete follower for claim C7's counterexample: already voted for node
3 at term 1, log `[(1,1)]`. -/
def stateC7 : RaftState := ⟨Follower, 1, 3, [⟨1, 1, 0⟩], 0, 0, zeroMap, zeroMap, [2, 3]⟩

/-- Concrete request for claim C7's counterexample: term 2 (forces
adoption), candidate 7 with an empty log (fails the up-to-date test). -/
def reqC7 : RequestVoteRequest := ⟨2, 7, 0, 0⟩

/-- C7 counterexample: the vote is denied, yet `votedFor` changes from 3 to
0 because the term adoption runs `toFollower`, refuting "replies
{currentTerm, false} without changing votedFor". -/
theorem c7_counterexample_denied_vote_changes_voted_for :
    (requestVote stateC7 reqC7).2.voteGranted = false ∧
    stateC7.votedFor = 3 ∧
    (requestVote stateC7 reqC7).1.votedFor = 0 := by
  decide

/-- C7 (amended): `requestVote` grants exactly when, after any term
adoption, the request term is not below the prior current term, `votedFor`
is 0 or already the candidate, and the candidate's log is at least as
up-to-date; a granted reply records `votedFor = candidateId`; a denied
reply carries the receiver's current term and leaves the log untouched and
`votedFor` at its post-adoption value (its prior value, or 0 when a newer
term was adopted) — never the candidate's id. -/
theorem c7_request_vote_grant_characterization (s : RaftState) (req : RequestVoteRequest) :
    ((requestVote s req).2.voteGranted = true ↔
      (s.currentTerm ≤ req.term ∧
        (vfAfterAdopt s req = 0 ∨ vfAfterAdopt s req = req.candidateId) ∧
        candidateUpToDate s req)) ∧
    ((requestVote s req).2.term = (requestVote s req).1.currentTerm) ∧
    ((requestVote s req).2.voteGranted = true →
      (requestVote s req).1.votedFor = req.candidateId) ∧
    ((requestVote s req).2.voteGranted = false →
      (requestVote s req).1.votedFor = vfAfterAdopt s req ∧
      (requestVote s req).1.logs = s.logs) := by
  by_cases h1 : req.term < s.currentTerm
  · have he : requestVote s req = (s, ⟨s.currentTerm, false⟩) := by
      unfold requestVote
      rw [if_pos h1]
    rw [he]
    refine ⟨?_, rfl, ?_, ?_⟩
    · apply iff_of_false
      · simp
      · rintro ⟨hle, _⟩
        omega
    · intro h
      simp at h
    · intro _
      refine ⟨?_, rfl⟩
      unfold vfAfterAdopt
      rw [if_neg (by omega)]
  · by_cases h2 : (rvAdopt s req).votedFor ≠ 0 ∧ (rvAdopt s req).votedFor ≠ req.candidateId
    · have he : requestVote s req = (rvAdopt s req, ⟨(rvAdopt s req).currentTerm, false⟩) := by
        unfold requestVote
        rw [if_neg h1, if_pos h2]
      rw [he]
      refine ⟨?_, rfl, ?_, ?_⟩
      · apply iff_of_false
        · simp
        · rintro ⟨_, hvf, _⟩
          rw [← rvAdopt_votedFor] at hvf
          rcases hvf with h | h
          · exact h2.1 h
          · exact h2.2 h
      · intro h
        simp at h
      · intro _
        exact ⟨rvAdopt_votedFor s req, rvAdopt_logs s req⟩
    · by_cases h3 : req.lastLogTerm < (getLastLogL (rvAdopt s req).logs).2 ∨
          ((getLastLogL (rvAdopt s req).logs).2 = req.lastLogTerm ∧
            req.lastLogId < (getLastLogL (rvAdopt s req).logs).1)
      · have he : requestVote s req = (rvAdopt s req, ⟨(rvAdopt s req).currentTerm, false⟩) := by
          unfold requestVote
          rw [if_neg h1, if_neg h2, if_pos h3]
        rw [he]
        refine ⟨?_, rfl, ?_, ?_⟩
        · apply iff_of_false
          · simp
          · rintro ⟨_, _, hup⟩
            rw [rvAdopt_logs] at h3
            unfold candidateUpToDate at hup
            rcases hup with h | ⟨he1, he2⟩ <;> rcases h3 with h' | ⟨h1', h2'⟩ <;> omega
        · intro h
          simp at h
        · intro _
          exact ⟨rvAdopt_votedFor s req, rvAdopt_logs s req⟩
      · have he : requestVote s req =
            ((rvAdopt s req).voteFor req.candidateId false,
              ⟨((rvAdopt s req).voteFor req.candidateId false).currentTerm, true⟩) := by
          unfold requestVote
          rw [if_neg h1, if_neg h2, if_neg h3]
        rw [he]
        refine ⟨?_, rfl, ?_, ?_⟩
        · apply iff_of_true
          · rfl
          · refine ⟨by omega, ?_, ?_⟩
            · rw [← rvAdopt_votedFor]
              rcases not_and_or.mp h2 with h | h
              · exact Or.inl (not_not.mp h)
              · exact Or.inr (not_not.mp h)
            · rw [rvAdopt_logs] at h3
              unfold candidateUpToDate
              omega
        · intro _
          simp
        · intro h
          simp at h

/-- Concrete follower for claim C7's witness: no vote recorded yet. -/
def stateC7w : RaftState := ⟨Follower, 1, 0, [⟨1, 1, 0⟩], 0, 0, zeroMap, zeroMap, [2, 3]⟩

/-- Concrete request for claim C7's witness: equal term, candidate 7 whose
last log `(2,1)` is ahead of the local `(1,1)`. -/
def reqC7w : RequestVoteRequest := ⟨1, 7, 2, 1⟩

/-- C7 witness: the characterization applied at a concrete granting input;
the right-hand side of the grant condition is discharged by evaluation. -/
theorem c7_request_vote_grant_characterization_witness :
    (requestVote stateC7w reqC7w).2.voteGranted = true ∧
    (requestVote stateC7w reqC7w).1.votedFor = reqC7w.candidateId :=
  ⟨(c7_request_vote_grant_characterization stateC7w reqC7w).1.mpr (by decide),
   (c7_request_vote_grant_characterization stateC7w reqC7w).2.2.1
     ((c7_request_vote_grant_characterization stateC7w reqC7w).1.mpr (by decide))⟩

/-! ## Claim C8 -/

theorem rvAdopt_commitIndex (s : RaftState) (req : RequestVoteRequest) :
    (rvAdopt s req).commitIndex = s.commitIndex := by
  unfold rvAdopt
  split_ifs <;> simp

theorem requestVote_commitIndex (s : RaftState) (req : RequestVoteRequest) :
    (requestVote s req).1.commitIndex = s.commitIndex := by
  unfold requestVote
  split_ifs <;> simp [rvAdopt_commitIndex]

theorem applyCommand_commitIndex (s : RaftState) (req : ApplyCommandRequest) :
    (applyCommand s req).1.commitIndex = s.commitIndex := by
  unfold applyCommand
  split_ifs <;> simp

theorem handleVoteResult_commitIndex (s : RaftState) (vote : VoteResult)
    (g needed : Nat) : (handleVoteResult s vote g needed).1.commitIndex = s.commitIndex := by
  simp only [handleVoteResult]
  split_ifs <;> simp

theorem aeReconciled_commitIndex (s : RaftState) (req : AppendEntriesRequest) :
    (aeReconciled s req).commitIndex = s.commitIndex := by
  unfold aeReconciled
  simp [aeAdopt_commitIndex]

theorem aeReconciled_logs (s : RaftState) (req : AppendEntriesRequest) :
    (aeReconciled s req).logs = aeReconcileLogs s.logs req.entries := by
  unfold aeReconciled
  simp [aeAdopt_logs]

/-- One invocation of any of the five state-mutating operations the claim
quantifies over, with its payload. -/
inductive NodeOp where
  | ae (req : AppendEntriesRequest)
  | rv (req : RequestVoteRequest)
  | ac (req : ApplyCommandRequest)
  | hvr (vote : VoteResult) (grantedVotes needed : Nat)
  | haer (res : AppendEntriesResult)

/-- The node state after one invocation of the given operation. -/
def stepOp (s : RaftState) : NodeOp → RaftState
  | NodeOp.ae req => (appendEntries s req).1
  | NodeOp.rv req => (requestVote s req).1
  | NodeOp.ac req => (applyCommand s req).1
  | NodeOp.hvr vote g needed => (handleVoteResult s vote g needed).1
  | NodeOp.haer res => handleAppendEntriesResult s res

/-- Concrete follower for claim C8's counterexample: three term-1 entries,
all committed (`commitIndex = 3`). -/
def stateC8 : RaftState := ⟨Follower, 1, 0, [⟨1, 1, 0⟩, ⟨2, 1, 1⟩, ⟨3, 1, 2⟩], 3, 3, zeroMap, zeroMap, [2, 3]⟩

/-- Concrete request for claim C8's counterexample: a term-2 request that
conflicts at entry 2 (truncating the log below `commitIndex`) and carries
`leaderCommitId = 5`. -/
def reqC8 : AppendEntriesRequest := ⟨2, 2, 1, 1, [⟨2, 2, 9⟩], 5⟩

/-- C8 counterexample: one `appendEntries` call drops `commitIndex` from 3
to 2 — the conflicting entry truncates the log to `[(1,1),(2,2)]` and the
leader-commit update then sets `commitIndex` to the new last id 2 —
refuting "commitIndex never decreases ... with arbitrary request
contents". -/
theorem c8_counterexample_commit_index_decreases :
    stateC8.commitIndex = 3 ∧
    (appendEntries stateC8 reqC8).1.commitIndex = 2 := by
  decide

/-- C8 (amended): `commitIndex` never decreases across `requestVote`,
`applyCommand`, `handleVoteResult` and `handleAppendEntriesResult` for
arbitrary inputs, and across `appendEntries` whenever the reconciled log's
last id is at least the prior `commitIndex` (i.e. the request does not
truncate committed entries). -/
theorem c8_commit_index_monotone (s : RaftState) (op : NodeOp)
    (hae : ∀ req, op = NodeOp.ae req →
      s.commitIndex ≤ (getLastLogL (aeReconcileLogs s.logs req.entries)).1) :
    s.commitIndex ≤ (stepOp s op).commitIndex := by
  cases op with
  | ae req =>
    have hle := hae req rfl
    show s.commitIndex ≤ (appendEntries s req).1.commitIndex
    unfold appendEntries
    split_ifs with h1 h2
    · exact le_rfl
    · exact le_of_eq (aeAdopt_commitIndex s req).symm
    · show s.commitIndex ≤ (aeCommitUpdate (aeReconciled s req) req).commitIndex
      unfold aeCommitUpdate
      split_ifs with h3 h4
      · rw [aeReconciled_commitIndex] at h3
        simp only [applyLogs_commitIndex, setCommitIndex_commitIndex]
        omega
      · simp only [applyLogs_commitIndex, setCommitIndex_commitIndex]
        have hlast : (aeReconciled s req).getLastLog.1
            = (getLastLogL (aeReconcileLogs s.logs req.entries)).1 := by
          unfold RaftState.getLastLog
          rw [aeReconciled_logs]
        rw [hlast]
        exact hle
      · exact le_of_eq (aeReconciled_commitIndex s req).symm
  | rv req => exact le_of_eq (requestVote_commitIndex s req).symm
  | ac req => exact le_of_eq (applyCommand_commitIndex s req).symm
  | hvr vote g needed => exact le_of_eq (handleVoteResult_commitIndex s vote g needed).symm
  | haer res =>
    show s.commitIndex ≤ (handleAppendEntriesResult s res).commitIndex
    unfold handleAppendEntriesResult
    calc s.commitIndex = (haerPreCommit s res).commitIndex :=
          (haerPreCommit_commitIndex s res).symm
      _ ≤ _ := commitScan_commitIndex_ge _ _ _

/-- Concrete state for claim C8's witness. -/
def stateC8w : RaftState := ⟨Follower, 1, 0, [⟨1, 1, 0⟩, ⟨2, 1, 1⟩], 1, 1, zeroMap, zeroMap, [2, 3]⟩

/-- Concrete non-truncating request for claim C8's witness. -/
def reqC8w : AppendEntriesRequest := ⟨1, 2, 2, 1, [⟨3, 1, 7⟩], 2⟩

/-- C8 witness: the monotonicity theorem applied to a concrete
`appendEntries` operation whose reconciled log keeps the committed
prefix. -/
theorem c8_commit_index_monotone_witness :
    stateC8w.commitIndex ≤ (stepOp stateC8w (NodeOp.ae reqC8w)).commitIndex :=
  c8_commit_index_monotone stateC8w (NodeOp.ae reqC8w)
    (by
      intro req h
      injection h with h1
      subst h1
      decide)

/-! ## Claim C4 -/

/-- The claim's commit condition at the scan state: `N` is above the
commit index, a log entry with id `N` carries the current term, and a
majority (self plus the peers whose `matchIndex` is at least `N`) holds
it. -/
def commitReady (s : RaftState) (N : Nat) : Prop :=
  s.commitIndex < N ∧ (∃ e ∈ s.logs, e.id = N ∧ e.term = s.currentTerm) ∧
    replicasNeededOf s ≤ replicaCount s N

instance (s : RaftState) (N : Nat) : Decidable (commitReady s N) := by
  unfold commitReady
  infer_instance

theorem commitReady_iff (s1 : RaftState) (N : Nat) :
    commitReady s1 N ↔
      ∃ e, e ∈ (getLogsL s1.logs (s1.commitIndex + 1)).reverse ∧ e.id = N ∧
        commitPred s1 (replicasNeededOf s1) e = true := by
  unfold commitReady commitPred getLogsL
  constructor
  · rintro ⟨hlt, ⟨e, he, hid, ht⟩, hm⟩
    refine ⟨e, ?_, hid, ?_⟩
    · rw [List.mem_reverse, List.mem_filter]
      refine ⟨he, ?_⟩
      simp only [decide_eq_true_eq]
      omega
    · simp only [Bool.and_eq_true, beq_iff_eq, decide_eq_true_eq]
      refine ⟨ht, ?_⟩
      rw [hid]
      exact hm
  · rintro ⟨e, hmem, hid, hp⟩
    rw [List.mem_reverse, List.mem_filter] at hmem
    obtain ⟨he, hc⟩ := hmem
    simp only [decide_eq_true_eq] at hc
    simp only [Bool.and_eq_true, beq_iff_eq, decide_eq_true_eq] at hp
    refine ⟨by omega, ⟨e, he, hid, hp.1⟩, ?_⟩
    rw [← hid]
    exact hp.2

/-- C4: after `handleAppendEntriesResult` handles a successful response,
`commitIndex` is the largest `N` that exceeds the prior `commitIndex`,
whose log entry carries the current term, and that a majority of the
cluster holds (`matchIndex` taken after the per-peer update of the same
call); when no such `N` exists, `commitIndex` is unchanged — so an
older-term entry replicated to a majority does not by itself advance
`commitIndex`.  Stated for well-formed logs below the `uint64` boundary. -/
theorem c4_commit_advancement (s : RaftState) (res : AppendEntriesResult)
    (hwf : WellFormedLog s.logs) (hsucc : res.success = true)
    (hov : s.commitIndex + 1 < W64) :
    ((∃ N, commitReady (haerPreCommit s res) N) →
      commitReady (haerPreCommit s res) (handleAppendEntriesResult s res).commitIndex ∧
      ∀ M, commitReady (haerPreCommit s res) M →
        M ≤ (handleAppendEntriesResult s res).commitIndex) ∧
    ((¬ ∃ N, commitReady (haerPreCommit s res) N) →
      (handleAppendEntriesResult s res).commitIndex = s.commitIndex) := by
  have hcomm : (haerPreCommit s res).commitIndex = s.commitIndex :=
    haerPreCommit_commitIndex s res
  have hwf1 : WellFormedLog (haerPreCommit s res).logs := by
    rw [haerPreCommit_logs]
    exact hwf
  have hadd : add64 (haerPreCommit s res).commitIndex 1
      = (haerPreCommit s res).commitIndex + 1 := by
    unfold add64
    rw [hcomm]
    exact Nat.mod_eq_of_lt hov
  have hstep : handleAppendEntriesResult s res
      = commitScan (haerPreCommit s res) (replicasNeededOf (haerPreCommit s res))
          ((getLogsL (haerPreCommit s res).logs
            ((haerPreCommit s res).commitIndex + 1)).reverse) := by
    unfold handleAppendEntriesResult
    rw [hadd]
  have hmemL : ∀ e ∈ (getLogsL (haerPreCommit s res).logs
      ((haerPreCommit s res).commitIndex + 1)).reverse,
      (haerPreCommit s res).commitIndex < e.id := by
    intro e he
    rw [List.mem_reverse] at he
    unfold getLogsL at he
    rw [List.mem_filter] at he
    have hc := he.2
    simp only [decide_eq_true_eq] at hc
    omega
  have hpw : ((getLogsL (haerPreCommit s res).logs
      ((haerPreCommit s res).commitIndex + 1)).reverse).Pairwise
        (fun a b => b.id < a.id) := by
    apply List.pairwise_reverse.mpr
    exact (hwf1.pairwise).filter _
  rw [hstep, commitScan_eq_find _ _ _ hmemL]
  cases hf : ((getLogsL (haerPreCommit s res).logs
      ((haerPreCommit s res).commitIndex + 1)).reverse).find?
        (commitPred (haerPreCommit s res) (replicasNeededOf (haerPreCommit s res))) with
  | none =>
    constructor
    · rintro ⟨N, hN⟩
      exfalso
      rcases (commitReady_iff (haerPreCommit s res) N).mp hN with ⟨e, he, hid, hp⟩
      exact List.find?_eq_none.mp hf e he hp
    · intro _
      exact hcomm
  | some a =>
    have hpa : commitPred (haerPreCommit s res) (replicasNeededOf (haerPreCommit s res)) a
        = true := List.find?_some hf
    have hma : a ∈ (getLogsL (haerPreCommit s res).logs
        ((haerPreCommit s res).commitIndex + 1)).reverse :=
      List.mem_of_find?_eq_some hf
    constructor
    · intro _
      constructor
      · simp only [applyLogs_commitIndex, setCommitIndex_commitIndex]
        exact (commitReady_iff (haerPreCommit s res) a.id).mpr ⟨a, hma, rfl, hpa⟩
      · intro M hM
        simp only [applyLogs_commitIndex, setCommitIndex_commitIndex]
        rcases (commitReady_iff (haerPreCommit s res) M).mp hM with ⟨e, he, hid, hp⟩
        rcases find?_first_of_pairwise hpw hf e he hp with h | h
        · rw [← hid, h]
        · omega
    · intro hnone
      exfalso
      exact hnone ⟨a.id, (commitReady_iff (haerPreCommit s res) a.id).mpr ⟨a, hma, rfl, hpa⟩⟩

/-- Concrete leader for claim C4's witness: one term-1 entry, nothing
committed, both peers already matching index 1. -/
def stateC4 : RaftState := ⟨Leader, 1, 1, [⟨1, 1, 0⟩], 0, 0, zeroMap, fun _ => 1, [2, 3]⟩

/-- Concrete successful response for claim C4's witness. -/
def resC4 : AppendEntriesResult := ⟨1, true, ⟨1, 1, 0, 0, [⟨1, 1, 0⟩], 0⟩, 2⟩

/-- C4 witness: the commit-advancement characterization applied at a
concrete state where entry 1 is majority-replicated at the current term. -/
theorem c4_commit_advancement_witness :
    WellFormedLog stateC4.logs ∧ resC4.success = true ∧ stateC4.commitIndex + 1 < W64 ∧
    (((∃ N, commitReady (haerPreCommit stateC4 resC4) N) →
      commitReady (haerPreCommit stateC4 resC4)
        (handleAppendEntriesResult stateC4 resC4).commitIndex ∧
      ∀ M, commitReady (haerPreCommit stateC4 resC4) M →
        M ≤ (handleAppendEntriesResult stateC4 resC4).commitIndex) ∧
    ((¬ ∃ N, commitReady (haerPreCommit stateC4 resC4) N) →
      (handleAppendEntriesResult stateC4 resC4).commitIndex = stateC4.commitIndex)) :=
  ⟨by decide, rfl, by decide,
   c4_commit_advancement stateC4 resC4 (by decide) rfl (by decide)⟩

end RaftVerify
